import Mathlib

/-!
# Verification of the `www` per-profile browser daemon

A shallow embedding, in Lean 4, of the core of the `www` repository: the
profile store (`internal/profile/store.go`), the session server and its RPC
dispatch (`internal/daemon/server.go`), the daemon lifecycle manager
(`internal/daemon/manager.go`), and the CLI-facing helpers
(`internal/app/app.go`).

Modelling conventions:
* Go strings are Lean `String`s (operated on as `List Char`); the ASCII
  fragment of Go's Unicode tables is embedded exactly, and non-ASCII letters
  are modelled as case-invariant (no claim exercises non-ASCII case mapping).
* Go `time.Time` instants and `time.Duration` values are integers counting
  nanoseconds; the zero `time.Time` is `0`, `t.After u` is `u < t`,
  `t.Equal u` is `t = u`.
* Fallible Go calls return `Except String` / `Option String` (an error
  message, `none` meaning success); external effects (the browser engine,
  the OS) are supplied as explicit oracle values.
* The on-disk profile tree is a map from sanitized profile name to the
  decoded `profile.json` content.  Go's `json.MarshalIndent` is
  deterministic on these fixed structs, so two writes produce byte-identical
  files exactly when the encoded `Profile` values are equal.
-/

/-! ## Go string primitives used by the repository -/

/-- Go `unicode.IsSpace`: the White_Space runes
(`\t \n \v \f \r` space, NEL, NBSP and the Unicode space separators). -/
def goIsSpace (c : Char) : Bool :=
  c.toNat = 9 ∨ c.toNat = 10 ∨ c.toNat = 11 ∨ c.toNat = 12 ∨ c.toNat = 13 ∨
  c.toNat = 32 ∨ c.toNat = 0x85 ∨ c.toNat = 0xA0 ∨ c.toNat = 0x1680 ∨
  (0x2000 ≤ c.toNat ∧ c.toNat ≤ 0x200A) ∨ c.toNat = 0x2028 ∨
  c.toNat = 0x2029 ∨ c.toNat = 0x202F ∨ c.toNat = 0x205F ∨ c.toNat = 0x3000

/-- Go `unicode.ToLower`, restricted to its ASCII action; non-ASCII
characters are modelled as case-invariant (no claim exercises them). -/
def goToLowerChar (c : Char) : Char :=
  if 65 ≤ c.toNat ∧ c.toNat ≤ 90 then Char.ofNat (c.toNat + 32) else c

/-- Go `strings.TrimSpace` on a character list: drop `unicode.IsSpace`
characters from both ends. -/
def goTrimSpace (l : List Char) : List Char :=
  ((l.dropWhile goIsSpace).reverse.dropWhile goIsSpace).reverse

/-- Go `strings.TrimSpace` on a `String`. -/
def goTrimSpaceStr (s : String) : String :=
  ⟨goTrimSpace s.toList⟩

/-- Go `strings.ToLower` on a `String` (ASCII action, see `goToLowerChar`). -/
def goToLowerStr (s : String) : String :=
  ⟨s.toList.map goToLowerChar⟩

/-- Go `strings.ReplaceAll s pat rep` for a one-character pattern and
replacement: with a single-character pattern every occurrence is one
character, so the replacement acts characterwise. -/
def goReplaceAllChar (s : String) (pat rep : Char) : String :=
  ⟨s.toList.map (fun c => if c = pat then rep else c)⟩

/-! ## Profile store (`internal/profile/store.go`) -/

/-- `profile.Profile` (store.go:14-22).  `ttl` is `ttl_seconds` (an `int64`
count of seconds); `createdAt`/`lastUsed` are UTC instants in nanoseconds. -/
structure Profile where
  name : String
  browser : String
  channel : String
  headless : Bool
  ttl : Int
  createdAt : Int
  lastUsed : Int
deriving DecidableEq, Repr

/-- `profile.Overrides` (store.go:177-182).  `ttl` is a `*time.Duration`
(nanoseconds). -/
structure Overrides where
  browser : String
  channel : String
  headless : Option Bool
  ttl : Option Int
deriving DecidableEq, Repr

/-- `time.Duration.Seconds` followed by `int64` conversion, as used at
store.go:124 and store.go:199: whole seconds, truncated toward zero. -/
def goDurationSeconds (d : Int) : Int :=
  Int.tdiv d 1000000000

/-- `sanitizeName` (store.go:205-210): `TrimSpace`, `ToLower`,
`ReplaceAll " " "-"`.  Only the space character `' '` is replaced; other
whitespace in the interior survives. -/
def sanitizeName (name : String) : String :=
  goReplaceAllChar (goToLowerStr (goTrimSpaceStr name)) ' ' '-'

/-- `applyOverrides` (store.go:184-203).  Returns the updated profile and
the `updated` flag; the flag is set whenever an override field is present,
whether or not the stored value actually changes. -/
def applyOverrides (p : Profile) (overrides : Overrides) : Profile × Bool :=
  let r1 := if overrides.browser ≠ "" then
      ({ p with browser := overrides.browser }, true) else (p, false)
  let r2 := if overrides.channel ≠ "" then
      ({ r1.1 with channel := overrides.channel }, true) else r1
  let r3 := match overrides.headless with
    | some b => ({ r2.1 with headless := b }, true)
    | none => r2
  match overrides.ttl with
  | some d => ({ r3.1 with ttl := goDurationSeconds d }, true)
  | none => r3

/-- `IsExpired` (store.go:152-158): `ttl ≤ 0` never expires, otherwise
expired iff `now` is strictly after `lastUsed + ttl` seconds. -/
def isExpired (now : Int) (p : Profile) : Bool :=
  if p.ttl ≤ 0 then false
  else decide (p.lastUsed + p.ttl * 1000000000 < now)

/-- The on-disk profile tree: decoded `profile.json` content per profile
directory (keyed by the sanitized directory name). -/
def ProfileFS : Type := String → Option Profile

/-- `Save` (store.go:58-74): re-sanitize the name, reject empty, write
`profile.json` in the profile's directory. -/
def storeSave (fs : ProfileFS) (p : Profile) : Except String ProfileFS :=
  let n := sanitizeName p.name
  if n = "" then .error "profile name required"
  else .ok (fun k => if k = n then some { p with name := n } else fs k)

/-- Outcome of `Upsert`: the updated tree, whether `os.WriteFile` ran, and
the returned `(profile, created)` or error. -/
structure UpsertOut where
  fs : ProfileFS
  wrote : Bool
  result : Except String (Profile × Bool)

/-- `Upsert` (store.go:109-141).  `now` is `time.Now().UTC()` (the two
reads at store.go:125-126 are modelled as one instant); `defaultTTL` is
`Store.DefaultTTL` in nanoseconds. -/
def upsert (now defaultTTL : Int) (fs : ProfileFS) (name : String)
    (overrides : Overrides) : UpsertOut :=
  let n := sanitizeName name
  if n = "" then ⟨fs, false, .error "profile name required"⟩
  else
    match fs n with
    | none =>
      let p0 : Profile :=
        ⟨n, "chromium", "chrome", true, goDurationSeconds defaultTTL, now, now⟩
      let p := (applyOverrides p0 overrides).1
      match storeSave fs p with
      | .error e => ⟨fs, false, .error e⟩
      | .ok fs1 => ⟨fs1, true, .ok (p, true)⟩
    | some p =>
      let r := applyOverrides p overrides
      if r.2 then
        match storeSave fs r.1 with
        | .error e => ⟨fs, false, .error e⟩
        | .ok fs1 => ⟨fs1, true, .ok (r.1, false)⟩
      else ⟨fs, false, .ok (r.1, false)⟩

/-- Whether any override field is present (set in the CLI flags sense). -/
def overridesSet (o : Overrides) : Bool :=
  o.browser ≠ "" || o.channel ≠ "" || o.headless.isSome || o.ttl.isSome

/-! ## RPC wire types (`internal/daemon/types.go`) -/

/-- `daemon.TabInfo` (wire type). -/
structure TabInfo where
  id : Nat
  url : String
  title : String
  active : Bool
deriving DecidableEq, Repr

/-- `browser.ExtractLink`. -/
structure ExtractLink where
  text : String
  href : String
deriving DecidableEq, Repr

/-- `browser.ExtractResult` (the fields the server passes through opaquely;
buttons/inputs/meta are carried the same way and elided). -/
structure ExtractResult where
  url : String
  title : String
  text : String
  links : List ExtractLink
deriving DecidableEq, Repr

/-- `daemon.StatusResult`. -/
structure StatusResult where
  profile : String
  tabs : List TabInfo
deriving DecidableEq, Repr

/-- The non-nil values `Server.dispatch` can return as its `any` result
(server.go:103-226).  Go's `handleRequest` distinguishes a nil interface
from these; methods whose handler returns `nil, err` have no constructor
here and are modelled as `Option ResultVal = none`. -/
inductive ResultVal where
  | statusR (r : StatusResult)
  | tabsR (r : List TabInfo)
  | tabR (r : TabInfo)
  | strR (r : String)
  | linksR (r : List ExtractLink)
  | rawR (r : String)
  | extractR (r : ExtractResult)
deriving DecidableEq, Repr

/-- `daemon.Response`: `result`/`error` are `omitempty` pointers/`RawMessage`,
so `none` means the field is absent from the encoded record. -/
structure Response where
  id : String
  result : Option ResultVal
  error : Option String
deriving DecidableEq, Repr

/-- A request whose `method` is known and whose `params` blob decoded to
that method's parameter shape (the hypothesis of the protocol claims).
Tabs are `Nat` (Go `int`, always ≥ 0 in practice: `0` means active tab);
`timeoutMs` is a Go `int` and may be negative, hence `Int`. -/
inductive MethodCall where
  | statusM
  | tabListM
  | tabNewM (url : String)
  | tabSwitchM (tab : Nat)
  | tabCloseM (tab : Nat)
  | gotoM (tab : Nat) (url : String) (timeoutMs : Int)
  | clickM (tab : Nat) (selector : String) (timeoutMs : Int)
  | fillM (tab : Nat) (selector value : String) (timeoutMs : Int)
  | shotM (tab : Nat) (path : String) (fullPage : Bool) (selector : String) (timeoutMs : Int)
  | extractM (tab : Nat) (selector : String) (main : Bool) (timeoutMs : Int)
  | urlM (tab : Nat)
  | linksM (tab : Nat) (filter : String)
  | evalM (tab : Nat) (js : String) (timeoutMs : Int)
  | stopM
deriving DecidableEq, Repr

/-- A decoded `daemon.Request`. -/
structure Request where
  id : String
  call : MethodCall
deriving DecidableEq, Repr

/-! ## Session server (`internal/daemon/server.go`) -/

/-- Immutable server configuration (`Server.profile`, `Server.storagePath`). -/
structure ServerConfig where
  profile : String
  storagePath : String
deriving DecidableEq, Repr

/-- The mutex-guarded server state (`Server.tabs`, `Server.activeTab`,
`Server.nextTabID`).  The registry is the list of tab IDs in the (arbitrary)
iteration order of the Go map; page handles are driven through the oracle. -/
structure ServerState where
  tabs : List Nat
  activeTab : Nat
  nextTabId : Nat
deriving DecidableEq, Repr

/-- Oracle for one request's external effects: outcomes of the engine calls
the handler makes (`none` = success) and the payloads opaque calls return. -/
structure Env where
  newPageErr : Option String
  actionErr : Option String
  storageErr : Option String
  urlOf : Nat → String
  titleOf : Nat → String
  linksVal : List ExtractLink
  evalVal : String
  extractVal : ExtractResult

/-- Server state right after a successful `Init` (server.go:40-54): one
initial page registered as tab 1, active, counter at 2. -/
def initServerState : ServerState := ⟨[1], 1, 2⟩

/-- `persistStorageLocked` (server.go:316-324): nothing to do without a
storage path, otherwise the outcome of `session.StorageState` (directory
creation failures are folded into the same oracle outcome). -/
def persistStorageLocked (cfg : ServerConfig) (env : Env) : Option String :=
  if cfg.storagePath = "" then none else env.storageErr

/-- Tab resolution inside `withTabLocked` (server.go:294-296): `0` means the
active tab. -/
def resolveTab (s : ServerState) (tab : Nat) : Nat :=
  if tab = 0 then s.activeTab else tab

/-- `withTabLocked` (server.go:293-305): resolve the tab, fail if unknown,
run the action, then persist storage — and *return* the persist error. -/
def withTabLocked (cfg : ServerConfig) (env : Env) (s : ServerState)
    (tab : Nat) : Except String Unit :=
  let t := resolveTab s tab
  if s.tabs.contains t then
    match env.actionErr with
    | some e => .error e
    | none =>
      match persistStorageLocked cfg env with
      | some e => .error e
      | none => .ok ()
  else .error "tab not found"

/-- The calls `withTabLockedTimeout` makes on the resolved page
(server.go:307-314), in order: `SetTimeout` exactly when `timeoutMs > 0`
(its error dropped), then the wrapped action. -/
inductive PageCallKind where
  | setTimeout (ms : Int)
  | action
deriving DecidableEq, Repr

/-- The page-call sequence of `withTabLockedTimeout` (server.go:307-314). -/
def withTabLockedTimeoutCalls (timeoutMs : Int) : List PageCallKind :=
  (if 0 < timeoutMs then [PageCallKind.setTimeout timeoutMs] else [])
    ++ [PageCallKind.action]

/-- `withTabLockedTimeout` (server.go:307-314): `SetTimeout`'s error is
dropped, so the request outcome is that of `withTabLocked`. -/
def withTabLockedTimeout (cfg : ServerConfig) (env : Env) (s : ServerState)
    (tab : Nat) (_timeoutMs : Int) : Except String Unit :=
  withTabLocked cfg env s tab

/-- `statusLockedTabs` (server.go:236-247): one `TabInfo` per registry entry
(URL/title read errors ignored), sorted ascending by ID. -/
def statusLockedTabs (env : Env) (s : ServerState) : List TabInfo :=
  ((s.tabs.map fun id =>
      TabInfo.mk id (env.urlOf id) (env.titleOf id) (id = s.activeTab))).mergeSort
    (fun a b => a.id ≤ b.id)

/-- `tabNewLocked` (server.go:249-265): create a page, assign `nextTabID`,
register it, make it active; a non-empty `url` is then loaded, and a `Goto`
failure is returned *after* the registry was already mutated.  The persist
error is discarded (server.go:263). -/
def tabNewLocked (_cfg : ServerConfig) (env : Env) (s : ServerState)
    (url : String) : ServerState × Except String TabInfo :=
  match env.newPageErr with
  | some e => (s, .error e)
  | none =>
    let id := s.nextTabId
    let s1 : ServerState := ⟨s.tabs ++ [id], id, id + 1⟩
    if url ≠ "" then
      match env.actionErr with
      | some e => (s1, .error e)
      | none => (s1, .ok ⟨id, "", "", true⟩)
    else (s1, .ok ⟨id, "", "", true⟩)

/-- `tabSwitchLocked` (server.go:267-273). -/
def tabSwitchLocked (s : ServerState) (tab : Nat) :
    ServerState × Except String Unit :=
  if s.tabs.contains tab then ({ s with activeTab := tab }, .ok ())
  else (s, .error "tab not found")

/-- `tabCloseLocked` (server.go:275-291): close and deregister the page; if
it was active, promote the first surviving registry entry (Go map iteration
order), or 0 when none remain.  Close and persist errors are discarded. -/
def tabCloseLocked (s : ServerState) (tab : Nat) :
    ServerState × Except String Unit :=
  if s.tabs.contains tab then
    let tabs1 := s.tabs.erase tab
    let active1 := if s.activeTab = tab then tabs1.head?.getD 0 else s.activeTab
    (⟨tabs1, active1, s.nextTabId⟩, .ok ())
  else (s, .error "tab not found")

/-- `Server.dispatch` (server.go:103-226) for a decoded request: the new
state and either an error or the (possibly nil) result value. -/
def dispatch (cfg : ServerConfig) (env : Env) (s : ServerState) :
    MethodCall → ServerState × Except String (Option ResultVal)
  | .statusM =>
    (s, .ok (some (.statusR ⟨cfg.profile, statusLockedTabs env s⟩)))
  | .tabListM => (s, .ok (some (.tabsR (statusLockedTabs env s))))
  | .tabNewM url =>
    let r := tabNewLocked cfg env s url
    (r.1, r.2.map fun info => some (.tabR info))
  | .tabSwitchM t =>
    let r := tabSwitchLocked s t
    (r.1, r.2.map fun _ => none)
  | .tabCloseM t =>
    let r := tabCloseLocked s t
    (r.1, (r.2.map fun _ => none))
  | .gotoM t _ ms =>
    (s, (withTabLockedTimeout cfg env s t ms).map fun _ => none)
  | .clickM t _ ms =>
    (s, (withTabLockedTimeout cfg env s t ms).map fun _ => none)
  | .fillM t _ _ ms =>
    (s, (withTabLockedTimeout cfg env s t ms).map fun _ => none)
  | .shotM t _ _ _ ms =>
    (s, (withTabLockedTimeout cfg env s t ms).map fun _ => none)
  | .extractM t _ _ ms =>
    (s, (withTabLockedTimeout cfg env s t ms).map fun _ =>
      some (.extractR env.extractVal))
  | .urlM t =>
    (s, (withTabLocked cfg env s t).map fun _ =>
      some (.strR (env.urlOf (resolveTab s t))))
  | .linksM t _ =>
    (s, (withTabLocked cfg env s t).map fun _ => some (.linksR env.linksVal))
  | .evalM t _ ms =>
    (s, (withTabLockedTimeout cfg env s t ms).map fun _ =>
      some (.rawR env.evalVal))
  | .stopM => (s, .ok none)

/-- `handleRequest` (server.go:88-101): error → error response; nil result →
bare `{id}` response; otherwise the encoded result.  `json.Marshal` cannot
fail on the shapes `dispatch` returns, so the marshal-error branch
(server.go:97-99) is unreachable and elided. -/
def handleRequest (cfg : ServerConfig) (env : Env) (s : ServerState)
    (req : Request) : ServerState × Response :=
  let r := dispatch cfg env s req.call
  match r.2 with
  | .error e => (r.1, ⟨req.id, none, some e⟩)
  | .ok none => (r.1, ⟨req.id, none, none⟩)
  | .ok (some v) => (r.1, ⟨req.id, some v, none⟩)

/-- A daemon's life after `Init`: the state reached by a sequence of
requests, each with its oracle. -/
def runServer (cfg : ServerConfig) (s : ServerState) :
    List (MethodCall × Env) → ServerState
  | [] => s
  | (c, env) :: rest => runServer cfg (dispatch cfg env s c).1 rest

/-- The tab IDs a step assigns (server.go:254): `TabNew` assigns
`nextTabID` as soon as `NewPage` succeeded, even when the initial `Goto`
then fails. -/
def stepAssigns (s : ServerState) : MethodCall × Env → List Nat
  | (.tabNewM _, env) => if env.newPageErr = none then [s.nextTabId] else []
  | _ => []

/-- All tab IDs assigned along a run, in order. -/
def runAssigns (cfg : ServerConfig) (s : ServerState) :
    List (MethodCall × Env) → List Nat
  | [] => []
  | (c, env) :: rest =>
    stepAssigns s (c, env) ++ runAssigns cfg (dispatch cfg env s c).1 rest

/-- The tab-registry invariant (§3 of the spec): distinct keys, every key
positive and below the counter, and the active pointer 0 exactly on an
empty registry and registered otherwise. -/
def TabInv (s : ServerState) : Prop :=
  s.tabs.Nodup ∧ 0 < s.nextTabId ∧
    (∀ id ∈ s.tabs, 0 < id ∧ id < s.nextTabId) ∧
    (if s.tabs = [] then s.activeTab = 0 else s.activeTab ∈ s.tabs)

/-! ## Lifecycle manager (`internal/daemon/manager.go`) -/

/-- `daemon.Info` (manager.go:16-22).  `binaryModTime` is an instant in
nanoseconds; `0` is the zero `time.Time` (`IsZero`). -/
structure Info where
  pid : Int
  socket : String
  startedAt : Int
  binaryPath : String
  binaryModTime : Int
deriving DecidableEq, Repr

/-- `binaryMismatch` (manager.go:131-143).  `current` is the outcome of
`CurrentBinaryInfo()` (`none` = error): an error, an empty recorded path or
a zero recorded modtime all report *no* mismatch; otherwise the recorded
path is compared first, then the modtime. -/
def binaryMismatch (current : Option (String × Int)) (info : Info) : Bool :=
  match current with
  | none => false
  | some (path, modTime) =>
    if info.binaryPath = "" ∨ info.binaryModTime = 0 then false
    else if info.binaryPath ≠ path then true
    else decide (info.binaryModTime ≠ modTime)

/-- The manager's view of one profile directory and of the OS: the two
on-disk artifacts (`daemon.json` as its decoded content, `daemon.sock` as
a presence bit) and the oracles for the three probes `IsRunning` makes. -/
structure MgrWorld where
  infoFile : Option Info
  sockFile : Bool
  procAliveOS : Int → Bool
  sockDialOk : Bool
  currentBin : Option (String × Int)

/-- `processAlive` (manager.go:154-166): non-positive PIDs are dead, else
the zero-signal probe decides. -/
def processAlive (w : MgrWorld) (pid : Int) : Bool :=
  if pid ≤ 0 then false else w.procAliveOS pid

/-- `cleanupStale` (manager.go:125-129): remove `daemon.sock` and
`daemon.json`, ignoring errors. -/
def cleanupStale (w : MgrWorld) : MgrWorld :=
  { w with sockFile := false, infoFile := none }

/-- `IsRunning` (manager.go:57-79) for one profile: the world after the
check and the `(running, info)` answer.  A missing `daemon.json` is "not
running"; a dead process or dead socket triggers cleanup; a binary mismatch
triggers an RPC `Stop` (best-effort, no modelled effect on the files) and
cleanup. -/
def isRunning (w : MgrWorld) : MgrWorld × Bool × Option Info :=
  match w.infoFile with
  | none => (w, false, none)
  | some info =>
    if ¬ processAlive w info.pid then (cleanupStale w, false, none)
    else if ¬ w.sockDialOk then (cleanupStale w, false, none)
    else if binaryMismatch w.currentBin info then (cleanupStale w, false, none)
    else (w, true, some info)

/-! ## CLI helpers (`internal/app/app.go`) -/

/-- `resolveTabIDFromStatus` (app.go:674-682): one tab resolves to it, zero
tabs is "no tabs available", two or more demand `--tab`. -/
def resolveTabIDFromStatus (status : StatusResult) : Except String Nat :=
  match status.tabs with
  | [t] => .ok t.id
  | [] => .error "no tabs available"
  | _ => .error "multiple tabs; use --tab"

/-! ### Go `time.ParseDuration`

`actionTimeoutMs` delegates parsing to the standard library's
`time.ParseDuration`; the relevant fragment is embedded below.  The one
deliberate deviation: Go computes the fractional-part contribution in
`float64` (`uint64(float64(f) * (float64(unit) / scale))`); it is modelled
here by the exact truncated quotient `f * unit / scale`.  No claim involves
fractional durations. -/

/-- `time.leadingInt`: consume leading decimal digits into `x`, failing on
overflow past `2^63`. -/
def leadingInt : Nat → List Char → Option (Nat × List Char)
  | x, [] => some (x, [])
  | x, c :: rest =>
    if c.isDigit then
      if x > 2 ^ 63 / 10 then none
      else
        let x1 := x * 10 + (c.toNat - '0'.toNat)
        if x1 > 2 ^ 63 then none else leadingInt x1 rest
    else some (x, c :: rest)

/-- `time.leadingFraction`: consume digits after the decimal point,
freezing the accumulator (but still consuming) once it would overflow.
Returns the fraction value, the scale (a power of ten) and the rest. -/
def leadingFraction : Nat → Nat → Bool → List Char → Nat × Nat × List Char
  | x, scale, _, [] => (x, scale, [])
  | x, scale, overflow, c :: rest =>
    if c.isDigit then
      if overflow then leadingFraction x scale true rest
      else if x > (2 ^ 63 - 1) / 10 then leadingFraction x scale true rest
      else
        let y := x * 10 + (c.toNat - '0'.toNat)
        if y > 2 ^ 63 then leadingFraction x scale true rest
        else leadingFraction y (scale * 10) false rest
    else (x, scale, c :: rest)

/-- `time.unitMap`: nanoseconds per unit token. -/
def unitMapNs : List Char → Option Nat
  | ['n', 's'] => some 1
  | ['u', 's'] => some 1000
  | ['µ', 's'] => some 1000
  | ['μ', 's'] => some 1000
  | ['m', 's'] => some 1000000
  | ['s'] => some 1000000000
  | ['m'] => some 60000000000
  | ['h'] => some 3600000000000
  | _ => none

/-- One character of a duration literal that continues a number. -/
def isDurNumChar (c : Char) : Bool := c = '.' || c.isDigit

/-- The `for s != ""` loop of `time.ParseDuration`, accumulating the total
in nanoseconds.  `fuel` bounds the recursion; every iteration that does not
fail consumes at least the (non-empty) unit token, so `fuel = length + 1`
never runs out. -/
def parseDurationLoop : Nat → Nat → List Char → Option Nat
  | _, d, [] => some d
  | 0, _, _ => none
  | fuel + 1, d, s@(c0 :: _) =>
    if ¬ isDurNumChar c0 then none
    else
      match leadingInt 0 s with
      | none => none
      | some (v, rem1) =>
        let pre := rem1.length ≠ s.length
        let fr :=
          match rem1 with
          | '.' :: r =>
            let lf := leadingFraction 0 1 false r
            (lf.1, lf.2.1, lf.2.2, decide (lf.2.2.length ≠ r.length))
          | _ => (0, 1, rem1, false)
        let f := fr.1
        let scale := fr.2.1
        let rem2 := fr.2.2.1
        let post := fr.2.2.2
        if ¬ pre ∧ ¬ post then none
        else
          let u := rem2.takeWhile (fun c => ¬ isDurNumChar c)
          let rem3 := rem2.dropWhile (fun c => ¬ isDurNumChar c)
          if u = [] then none
          else
            match unitMapNs u with
            | none => none
            | some unit =>
              if v > 2 ^ 63 / unit then none
              else
                let v1 := v * unit
                let v2 := if f > 0 then v1 + f * unit / scale else v1
                if f > 0 ∧ v2 > 2 ^ 63 then none
                else
                  let d1 := d + v2
                  if d1 > 2 ^ 63 then none
                  else parseDurationLoop fuel d1 rem3

/-- Go `time.ParseDuration`: optional sign, the special literal `0`, then
one or more `[number][unit]` groups.  The result is a duration in
nanoseconds; errors carry the messages `actionTimeoutMs` wraps. -/
def parseDuration (s : String) : Except String Int :=
  let l := s.toList
  let sign :=
    match l with
    | '-' :: rest => (true, rest)
    | '+' :: rest => (false, rest)
    | _ => (false, l)
  let neg := sign.1
  let l1 := sign.2
  if l1 = ['0'] then .ok 0
  else if l1 = [] then .error "time: invalid duration"
  else
    match parseDurationLoop (l1.length + 1) 0 l1 with
    | none => .error "time: invalid duration"
    | some d =>
      if neg then .ok (-(Int.ofNat d))
      else if d > 2 ^ 63 - 1 then .error "time: invalid duration"
      else .ok (Int.ofNat d)

/-- `actionTimeoutMs` (app.go:606-618): a blank `--timeout` is the 20 s
default; a parse failure is an error (the caller exits with the usage
code); a non-positive duration means "no explicit override" (`0`);
otherwise whole milliseconds. -/
def actionTimeoutMs (timeout : String) : Except String Int :=
  if goTrimSpaceStr timeout = "" then .ok 20000
  else
    match parseDuration timeout with
    | .error e => .error ("invalid timeout: " ++ e)
    | .ok d => if d ≤ 0 then .ok 0 else .ok (Int.tdiv d 1000000)

instance (s : ServerState) : Decidable (TabInv s) := by
  unfold TabInv; infer_instance

/-- An oracle where every engine call succeeds. -/
def envAllOk : Env :=
  ⟨none, none, none, fun _ => "", fun _ => "", [], "null", ⟨"", "", "", []⟩⟩

/-- An oracle where page actions succeed but the storage write fails. -/
def envPersistFail : Env :=
  ⟨none, none, some "storage write failed", fun _ => "", fun _ => "", [], "null",
    ⟨"", "", "", []⟩⟩

/-- Modelled from the spec: `sanitize` as claim C10 words it — trim,
lowercase, and replace **whitespace** by `'-'`. -/
def sanitizeSpecWhitespace (s : String) : String :=
  ⟨(goTrimSpace s.toList).map
    (fun c => if goIsSpace (goToLowerChar c) then '-' else goToLowerChar c)⟩

/-- `sanitize` as amended: trim, lowercase, and replace the space character
`' '` (only) by `'-'`. -/
def sanitizeSpecSpaces (s : String) : String :=
  ⟨(goTrimSpace s.toList).map
    (fun c => if goToLowerChar c = ' ' then '-' else goToLowerChar c)⟩

/-- The composite character action of `sanitizeName`: lowercase, then the
space-to-dash replacement. -/
def sanCh (c : Char) : Char :=
  if goToLowerChar c = ' ' then '-' else goToLowerChar c

/-! ## Supporting lemmas -/

theorem toNat_ofNat_valid {n : Nat} (h : n < 0xd800) : (Char.ofNat n).toNat = n := by
  rw [Char.ofNat, dif_pos (Or.inl h)]
  simp [Char.toNat, Char.ofNatAux, UInt32.ofNat', UInt32.toNat]

theorem toNat_goToLowerChar (c : Char) :
    (goToLowerChar c).toNat =
      if 65 ≤ c.toNat ∧ c.toNat ≤ 90 then c.toNat + 32 else c.toNat := by
  unfold goToLowerChar
  split
  · next h => exact toNat_ofNat_valid (by omega)
  · rfl

theorem goToLowerChar_not_space {c : Char} (h : goIsSpace c = false) :
    goIsSpace (goToLowerChar c) = false := by
  simp only [goIsSpace, decide_eq_false_iff_not] at h ⊢
  rw [toNat_goToLowerChar]
  split <;> omega

theorem goToLowerChar_fix {c : Char} (h : ¬ (65 ≤ c.toNat ∧ c.toNat ≤ 90)) :
    goToLowerChar c = c := by
  unfold goToLowerChar; rw [if_neg h]


theorem sanCh_ne_space (c : Char) : sanCh c ≠ ' ' := by
  unfold sanCh; split
  · decide
  · assumption

theorem sanCh_not_space {c : Char} (h : goIsSpace c = false) :
    goIsSpace (sanCh c) = false := by
  unfold sanCh
  split
  · decide
  · exact goToLowerChar_not_space h

theorem sanCh_toNat_not_upper (c : Char) :
    ¬ (65 ≤ (sanCh c).toNat ∧ (sanCh c).toNat ≤ 90) := by
  unfold sanCh
  split
  · decide
  · rw [toNat_goToLowerChar]; split <;> omega

theorem sanCh_idem (c : Char) : sanCh (sanCh c) = sanCh c := by
  have h1 := goToLowerChar_fix (sanCh_toNat_not_upper c)
  have h2 := sanCh_ne_space c
  show (if goToLowerChar (sanCh c) = ' ' then '-' else goToLowerChar (sanCh c)) = sanCh c
  rw [h1, if_neg h2]


theorem head?_dropWhile_eq_some {p : Char → Bool} {l : List Char} {c : Char}
    (h : (l.dropWhile p).head? = some c) : p c = false := by
  have := List.head?_dropWhile_not p l
  rw [h] at this
  exact this

theorem dropWhile_eq_self_of_head? {p : Char → Bool} {l : List Char}
    (h : ∀ c, l.head? = some c → p c = false) : l.dropWhile p = l := by
  cases l with
  | nil => rfl
  | cons a t => simp [List.dropWhile_cons, h a rfl]

theorem goTrimSpace_eq_self {l : List Char}
    (h1 : ∀ c, l.head? = some c → goIsSpace c = false)
    (h2 : ∀ c, l.getLast? = some c → goIsSpace c = false) :
    goTrimSpace l = l := by
  unfold goTrimSpace
  rw [dropWhile_eq_self_of_head? h1]
  rw [dropWhile_eq_self_of_head? (fun c hc => h2 c (by simpa using hc))]
  exact List.reverse_reverse l

theorem goTrimSpace_head? {l : List Char} {c : Char}
    (h : (goTrimSpace l).head? = some c) : goIsSpace c = false := by
  have hx : (List.rdropWhile goIsSpace (l.dropWhile goIsSpace)).head? = some c := h
  obtain ⟨t, ht⟩ := List.rdropWhile_prefix goIsSpace (l.dropWhile goIsSpace)
  have hA : (l.dropWhile goIsSpace).head? = some c := by
    rw [← ht, List.head?_append, hx]; rfl
  exact head?_dropWhile_eq_some hA

theorem goTrimSpace_getLast? {l : List Char} {c : Char}
    (h : (goTrimSpace l).getLast? = some c) : goIsSpace c = false := by
  unfold goTrimSpace at h
  rw [List.getLast?_reverse] at h
  exact head?_dropWhile_eq_some h

theorem sanitizeName_data (s : String) :
    (sanitizeName s).toList = (goTrimSpace s.toList).map sanCh := by
  show (List.map _ (List.map goToLowerChar (goTrimSpace s.toList))) = _
  rw [List.map_map]
  rfl

theorem string_eq_of_toList {a b : String} (h : a.toList = b.toList) : a = b := by
  cases a; cases b; exact congrArg String.mk (by simpa using h)

theorem sanitizeName_idem (s : String) :
    sanitizeName (sanitizeName s) = sanitizeName s := by
  apply string_eq_of_toList
  rw [sanitizeName_data (sanitizeName s)]
  have htrim : goTrimSpace (sanitizeName s).toList = (sanitizeName s).toList := by
    apply goTrimSpace_eq_self
    · intro c hc
      rw [sanitizeName_data, List.head?_map] at hc
      cases hh : (goTrimSpace s.toList).head? with
      | none => rw [hh] at hc; simp at hc
      | some c0 =>
        rw [hh] at hc
        simp at hc
        rw [← hc]
        exact sanCh_not_space (goTrimSpace_head? hh)
    · intro c hc
      rw [sanitizeName_data, List.getLast?_map] at hc
      cases hh : (goTrimSpace s.toList).getLast? with
      | none => rw [hh] at hc; simp at hc
      | some c0 =>
        rw [hh] at hc
        simp at hc
        rw [← hc]
        exact sanCh_not_space (goTrimSpace_getLast? hh)
  rw [htrim, sanitizeName_data s, List.map_map]
  apply List.map_congr_left
  intro c _
  exact sanCh_idem c

theorem tabInv_init : TabInv initServerState := by decide

theorem tabNewLocked_fst_some (cfg : ServerConfig) (env : Env) (s : ServerState)
    (url : String) (e : String) (h : env.newPageErr = some e) :
    (tabNewLocked cfg env s url).1 = s := by
  simp only [tabNewLocked, h]

theorem tabNewLocked_fst_none (cfg : ServerConfig) (env : Env) (s : ServerState)
    (url : String) (h : env.newPageErr = none) :
    (tabNewLocked cfg env s url).1
      = ⟨s.tabs ++ [s.nextTabId], s.nextTabId, s.nextTabId + 1⟩ := by
  simp only [tabNewLocked, h]
  split
  · cases env.actionErr <;> rfl
  · rfl

theorem contains_iff_mem_nat (l : List Nat) (a : Nat) : l.contains a = true ↔ a ∈ l := by
  simp [List.contains]

theorem tabInv_dispatch (cfg : ServerConfig) (env : Env) (s : ServerState)
    (c : MethodCall) (h : TabInv s) : TabInv (dispatch cfg env s c).1 := by
  obtain ⟨hnd, hnext, hbound, hact⟩ := h
  cases c with
  | statusM => exact ⟨hnd, hnext, hbound, hact⟩
  | tabListM => exact ⟨hnd, hnext, hbound, hact⟩
  | gotoM t u ms => exact ⟨hnd, hnext, hbound, hact⟩
  | clickM t sel ms => exact ⟨hnd, hnext, hbound, hact⟩
  | fillM t sel v ms => exact ⟨hnd, hnext, hbound, hact⟩
  | shotM t p fp sel ms => exact ⟨hnd, hnext, hbound, hact⟩
  | extractM t sel m ms => exact ⟨hnd, hnext, hbound, hact⟩
  | urlM t => exact ⟨hnd, hnext, hbound, hact⟩
  | linksM t f => exact ⟨hnd, hnext, hbound, hact⟩
  | evalM t js ms => exact ⟨hnd, hnext, hbound, hact⟩
  | stopM => exact ⟨hnd, hnext, hbound, hact⟩
  | tabNewM url =>
    show TabInv (tabNewLocked cfg env s url).1
    cases hnp : env.newPageErr with
    | some e => rw [tabNewLocked_fst_some cfg env s url e hnp]; exact ⟨hnd, hnext, hbound, hact⟩
    | none =>
      rw [tabNewLocked_fst_none cfg env s url hnp]
      refine ⟨?_, ?_, ?_, ?_⟩ <;> dsimp only
      · exact hnd.append (List.nodup_singleton _)
          (fun a ha hb => absurd (hbound a ha).2
            (by rw [List.mem_singleton.mp hb]; exact lt_irrefl _))
      · omega
      · intro id hid
        rcases List.mem_append.mp hid with hl | hr
        · have := hbound id hl
          omega
        · rw [List.mem_singleton.mp hr]
          omega
      · have hne : s.tabs ++ [s.nextTabId] ≠ [] := by simp
        rw [if_neg hne]
        simp
  | tabSwitchM t =>
    show TabInv (tabSwitchLocked s t).1
    unfold tabSwitchLocked
    split
    · next hc =>
      have hmem : t ∈ s.tabs := (contains_iff_mem_nat _ _).mp hc
      refine ⟨hnd, hnext, hbound, ?_⟩
      have : s.tabs ≠ [] := List.ne_nil_of_mem hmem
      simp only [if_neg this]
      exact hmem
    · exact ⟨hnd, hnext, hbound, hact⟩
  | tabCloseM t =>
    show TabInv (tabCloseLocked s t).1
    unfold tabCloseLocked
    split
    · next hc =>
      have hmem : t ∈ s.tabs := (contains_iff_mem_nat _ _).mp hc
      refine ⟨hnd.erase t, hnext, ?_, ?_⟩
      · intro id hid
        exact hbound id (List.mem_of_mem_erase hid)
      · by_cases hempty : s.tabs.erase t = []
        · rw [if_pos hempty]
          simp only
          by_cases hat : s.activeTab = t
          · rw [if_pos hat, hempty]; rfl
          · exfalso
            have hne : s.tabs ≠ [] := List.ne_nil_of_mem hmem
            rw [if_neg hne] at hact
            have : s.activeTab ∈ s.tabs.erase t :=
              (List.mem_erase_of_ne hat).mpr hact
            rw [hempty] at this
            exact absurd this (List.not_mem_nil _)
        · rw [if_neg hempty]
          simp only
          by_cases hat : s.activeTab = t
          · rw [if_pos hat]
            cases herase : s.tabs.erase t with
            | nil => exact absurd herase hempty
            | cons a rest => simp
          · rw [if_neg hat]
            have hne : s.tabs ≠ [] := List.ne_nil_of_mem hmem
            rw [if_neg hne] at hact
            exact (List.mem_erase_of_ne hat).mpr hact
    · exact ⟨hnd, hnext, hbound, hact⟩

theorem tabSwitchLocked_nextTabId (s : ServerState) (t : Nat) :
    (tabSwitchLocked s t).1.nextTabId = s.nextTabId := by
  unfold tabSwitchLocked
  split <;> rfl

theorem tabCloseLocked_nextTabId (s : ServerState) (t : Nat) :
    (tabCloseLocked s t).1.nextTabId = s.nextTabId := by
  unfold tabCloseLocked
  split <;> rfl

theorem nextTabId_mono (cfg : ServerConfig) (env : Env) (s : ServerState)
    (c : MethodCall) : s.nextTabId ≤ (dispatch cfg env s c).1.nextTabId := by
  cases c with
  | tabNewM url =>
    show s.nextTabId ≤ (tabNewLocked cfg env s url).1.nextTabId
    cases hnp : env.newPageErr with
    | some e => rw [tabNewLocked_fst_some cfg env s url e hnp]
    | none => rw [tabNewLocked_fst_none cfg env s url hnp]; dsimp only; omega
  | tabSwitchM t =>
    show s.nextTabId ≤ (tabSwitchLocked s t).1.nextTabId
    rw [tabSwitchLocked_nextTabId]
  | tabCloseM t =>
    show s.nextTabId ≤ (tabCloseLocked s t).1.nextTabId
    rw [tabCloseLocked_nextTabId]
  | statusM => exact le_refl _
  | tabListM => exact le_refl _
  | gotoM t u ms => exact le_refl _
  | clickM t sel ms => exact le_refl _
  | fillM t sel v ms => exact le_refl _
  | shotM t p fp sel ms => exact le_refl _
  | extractM t sel m ms => exact le_refl _
  | urlM t => exact le_refl _
  | linksM t f => exact le_refl _
  | evalM t js ms => exact le_refl _
  | stopM => exact le_refl _

theorem runServer_inv (cfg : ServerConfig) (ops : List (MethodCall × Env)) :
    ∀ s : ServerState, TabInv s → TabInv (runServer cfg s ops) := by
  induction ops with
  | nil => intro s h; exact h
  | cons op rest ih =>
    intro s h
    obtain ⟨c, env⟩ := op
    exact ih _ (tabInv_dispatch cfg env s c h)

theorem mem_stepAssigns {s : ServerState} {env : Env} {a : Nat} :
    ∀ {c : MethodCall}, a ∈ stepAssigns s (c, env) →
      a = s.nextTabId ∧ env.newPageErr = none
  | .tabNewM _, h => by
    have h1 : a ∈ (if env.newPageErr = none then [s.nextTabId] else []) := h
    split at h1
    · next hnp => exact ⟨List.mem_singleton.mp h1, hnp⟩
    · exact absurd h1 (List.not_mem_nil _)
  | .statusM, h => absurd h (List.not_mem_nil _)
  | .tabListM, h => absurd h (List.not_mem_nil _)
  | .tabSwitchM _, h => absurd h (List.not_mem_nil _)
  | .tabCloseM _, h => absurd h (List.not_mem_nil _)
  | .gotoM _ _ _, h => absurd h (List.not_mem_nil _)
  | .clickM _ _ _, h => absurd h (List.not_mem_nil _)
  | .fillM _ _ _ _, h => absurd h (List.not_mem_nil _)
  | .shotM _ _ _ _ _, h => absurd h (List.not_mem_nil _)
  | .extractM _ _ _ _, h => absurd h (List.not_mem_nil _)
  | .urlM _, h => absurd h (List.not_mem_nil _)
  | .linksM _ _, h => absurd h (List.not_mem_nil _)
  | .evalM _ _ _, h => absurd h (List.not_mem_nil _)
  | .stopM, h => absurd h (List.not_mem_nil _)

theorem runAssigns_lower (cfg : ServerConfig) (ops : List (MethodCall × Env)) :
    ∀ (s : ServerState) (a : Nat), a ∈ runAssigns cfg s ops → s.nextTabId ≤ a := by
  induction ops with
  | nil => intro s a ha; simp [runAssigns] at ha
  | cons op rest ih =>
    intro s a ha
    obtain ⟨c, env⟩ := op
    rw [runAssigns] at ha
    rcases List.mem_append.mp ha with h1 | h2
    · rw [(mem_stepAssigns h1).1]
    · exact le_trans (nextTabId_mono cfg env s c) (ih _ a h2)

theorem runAssigns_pairwise (cfg : ServerConfig) (ops : List (MethodCall × Env)) :
    ∀ s : ServerState, List.Pairwise (· < ·) (runAssigns cfg s ops) := by
  induction ops with
  | nil => intro s; simp [runAssigns]
  | cons op rest ih =>
    intro s
    obtain ⟨c, env⟩ := op
    rw [runAssigns, List.pairwise_append]
    refine ⟨?_, ih _, ?_⟩
    · cases c <;> simp only [stepAssigns] <;> try exact List.Pairwise.nil
      next url =>
        split
        · exact List.pairwise_singleton _ _
        · exact List.Pairwise.nil
    · intro a ha b hb
      obtain ⟨haeq, hnp⟩ := mem_stepAssigns ha
      subst haeq
      have hb2 := runAssigns_lower cfg rest _ b hb
      have hmono := nextTabId_mono cfg env s c
      have hstep : s.nextTabId < (dispatch cfg env s c).1.nextTabId ∨
          s.nextTabId < b ∨ (stepAssigns s (c, env) = []) := by
        cases c <;> first
          | exact Or.inr (Or.inr rfl)
          | · next url =>
              refine Or.inl ?_
              show s.nextTabId < (tabNewLocked cfg env s url).1.nextTabId
              rw [tabNewLocked_fst_none cfg env s url hnp]
              dsimp only
              omega
      rcases hstep with h | h | h
      · omega
      · omega
      · rw [h] at ha
        exact absurd ha (List.not_mem_nil _)

/-- C1, counterexample: a `Goto` whose page action succeeds but whose
subsequent storage persist fails produces an *error* response — the persist
failure is not silently ignored for `Goto` (server.go:304 returns it). -/
theorem goto_persist_error_surfaces :
    (handleRequest ⟨"p", "storage.json"⟩ envPersistFail ⟨[1], 1, 2⟩
        ⟨"9", .gotoM 0 "https://example.com" 0⟩).2
      = ⟨"9", none, some "storage write failed"⟩ := rfl

/-- C1, amended: persist failures are swallowed for `TabNew`, `TabClose` and
`Stop` (server.go:263, 289, 219), but for the `withTab`-routed methods
(`Goto`, `Click`, `Fill`, `Shot`, `Extract`, `Eval`, and also `URL`/`Links`)
a persist failure after a successful action is returned as the response
error (server.go:304). -/
theorem dispatch_tabNew_eq (cfg : ServerConfig) (env : Env) (s : ServerState)
    (url : String) :
    dispatch cfg env s (.tabNewM url)
      = ((tabNewLocked cfg env s url).1,
         (tabNewLocked cfg env s url).2.map fun info => some (.tabR info)) := rfl

theorem dispatch_tabClose_eq (cfg : ServerConfig) (env : Env) (s : ServerState)
    (t : Nat) :
    dispatch cfg env s (.tabCloseM t)
      = ((tabCloseLocked s t).1, (tabCloseLocked s t).2.map fun _ => none) := rfl

theorem tabNewLocked_ok (cfg : ServerConfig) (env : Env) (s : ServerState)
    (url : String) (hnew : env.newPageErr = none) (hact : env.actionErr = none) :
    tabNewLocked cfg env s url
      = (⟨s.tabs ++ [s.nextTabId], s.nextTabId, s.nextTabId + 1⟩,
         .ok ⟨s.nextTabId, "", "", true⟩) := by
  unfold tabNewLocked
  rw [hnew]
  dsimp only
  split
  · rw [hact]
  · rfl

theorem persist_error_policy (cfg : ServerConfig) (env : Env) (s : ServerState)
    (t : Nat) (url e : String)
    (hact : env.actionErr = none) (hnew : env.newPageErr = none)
    (hmem : t ∈ s.tabs) (ht : t ≠ 0) :
    ((dispatch cfg env s (.tabNewM url)).2
        = .ok (some (.tabR ⟨s.nextTabId, "", "", true⟩))) ∧
    ((dispatch cfg env s (.tabCloseM t)).2 = .ok none) ∧
    ((dispatch cfg env s .stopM).2 = .ok none) ∧
    (cfg.storagePath ≠ "" → env.storageErr = some e →
      ∀ (ms : Int) (sel v pth js fil : String) (fp mb : Bool),
        (dispatch cfg env s (.gotoM t url ms)).2 = .error e ∧
        (dispatch cfg env s (.clickM t sel ms)).2 = .error e ∧
        (dispatch cfg env s (.fillM t sel v ms)).2 = .error e ∧
        (dispatch cfg env s (.shotM t pth fp sel ms)).2 = .error e ∧
        (dispatch cfg env s (.extractM t sel mb ms)).2 = .error e ∧
        (dispatch cfg env s (.evalM t js ms)).2 = .error e ∧
        (dispatch cfg env s (.urlM t)).2 = .error e ∧
        (dispatch cfg env s (.linksM t fil)).2 = .error e) := by
  have hcont : s.tabs.contains (resolveTab s t) = true := by
    unfold resolveTab
    rw [if_neg ht]
    exact (contains_iff_mem_nat _ _).mpr hmem
  refine ⟨?_, ?_, rfl, ?_⟩
  · rw [dispatch_tabNew_eq, tabNewLocked_ok cfg env s url hnew hact]
    rfl
  · rw [dispatch_tabClose_eq]
    unfold tabCloseLocked
    rw [if_pos ((contains_iff_mem_nat _ _).mpr hmem)]
    rfl
  · intro hsp hse ms sel v pth js fil fp mb
    have hw0 : withTabLocked cfg env s t = .error e := by
      unfold withTabLocked persistStorageLocked
      rw [if_pos hcont, hact, if_neg hsp, hse]
    have hw : ∀ ms0 : Int, withTabLockedTimeout cfg env s t ms0 = .error e :=
      fun _ => hw0
    refine ⟨?_, ?_, ?_, ?_, ?_, ?_, ?_, ?_⟩ <;>
      (show ((withTabLockedTimeout cfg env s t ms).map _
          : Except String (Option ResultVal)) = _
       rw [hw ms]
       rfl)

/-- Closed witness for `persist_error_policy` at a concrete state and oracle. -/
theorem persist_error_policy_witness :
    ((dispatch ⟨"p", "storage.json"⟩ envPersistFail ⟨[1], 1, 2⟩
        (.tabCloseM 1)).2 = .ok none) ∧
    ((dispatch ⟨"p", "storage.json"⟩ envPersistFail ⟨[1], 1, 2⟩
        (.gotoM 1 "https://example.com" 0)).2 = .error "storage write failed") := by
  have h := persist_error_policy ⟨"p", "storage.json"⟩ envPersistFail ⟨[1], 1, 2⟩
    1 "https://example.com" "storage write failed" rfl rfl (by decide) (by decide)
  exact ⟨h.2.1, (h.2.2.2 (by decide) rfl 0 "" "" "" "" "" true true).1⟩

/-- C2, counterexample: a well-formed `TabSwitch` request that succeeds gets
a response in which *neither* `result` nor `error` is populated
(server.go:93-95) — not "exactly one". -/
theorem response_neither_field_populated :
    (handleRequest ⟨"p", ""⟩ envAllOk ⟨[1], 1, 2⟩ ⟨"1", .tabSwitchM 1⟩).2
      = ⟨"1", none, none⟩ := rfl

/-- C2, amended: every decoded request yields a response echoing its `id`
with *at most* one of `result`/`error` populated: `error` is populated iff
the dispatch failed, and `result` iff it succeeded with a non-nil value
(which `TabSwitch`, `TabClose`, `Goto`, `Click`, `Fill`, `Shot` and `Stop`
never produce). -/
theorem response_id_and_exclusivity (cfg : ServerConfig) (env : Env)
    (s : ServerState) (req : Request) :
    ((handleRequest cfg env s req).2.id = req.id) ∧
    (¬ ((handleRequest cfg env s req).2.result.isSome
        ∧ (handleRequest cfg env s req).2.error.isSome)) ∧
    ((handleRequest cfg env s req).2.error.isSome ↔
      ∃ e, (dispatch cfg env s req.call).2 = .error e) ∧
    ((handleRequest cfg env s req).2.result.isSome ↔
      ∃ v, (dispatch cfg env s req.call).2 = .ok (some v)) := by
  unfold handleRequest
  cases hd : (dispatch cfg env s req.call).2 with
  | error e => simp [hd]
  | ok o => cases o <;> simp [hd]

/-- C4: over any run of the daemon from the post-`Init` state, the registry
invariant holds (`active_tab ≠ 0` is always a registered key), the sequence
of assigned tab IDs (1, then each `TabNew`) is strictly increasing — so no
closed ID is ever reassigned — and closing the active tab promotes a
surviving tab, or resets to 0 when none remain. -/
theorem tab_registry_monotonic (cfg : ServerConfig)
    (ops : List (MethodCall × Env)) :
    TabInv (runServer cfg initServerState ops) ∧
    List.Pairwise (· < ·) (1 :: runAssigns cfg initServerState ops) ∧
    (∀ (env : Env) (t : Nat),
      t = (runServer cfg initServerState ops).activeTab →
      t ∈ (runServer cfg initServerState ops).tabs →
      (((dispatch cfg env (runServer cfg initServerState ops) (.tabCloseM t)).1.tabs ≠ [] ∧
        (dispatch cfg env (runServer cfg initServerState ops) (.tabCloseM t)).1.activeTab ∈
          (dispatch cfg env (runServer cfg initServerState ops) (.tabCloseM t)).1.tabs) ∨
       ((dispatch cfg env (runServer cfg initServerState ops) (.tabCloseM t)).1.tabs = [] ∧
        (dispatch cfg env (runServer cfg initServerState ops) (.tabCloseM t)).1.activeTab = 0))) := by
  refine ⟨runServer_inv cfg ops _ tabInv_init, ?_, ?_⟩
  · rw [List.pairwise_cons]
    refine ⟨?_, runAssigns_pairwise cfg ops _⟩
    intro b hb
    have h2 : (2 : Nat) ≤ b := runAssigns_lower cfg ops _ b hb
    omega
  · intro env t _ _
    have hinv := tabInv_dispatch cfg env _ (.tabCloseM t)
      (runServer_inv cfg ops _ tabInv_init)
    by_cases hs :
        (dispatch cfg env (runServer cfg initServerState ops) (.tabCloseM t)).1.tabs = []
    · right
      refine ⟨hs, ?_⟩
      have := hinv.2.2.2
      rwa [if_pos hs] at this
    · left
      refine ⟨hs, ?_⟩
      have := hinv.2.2.2
      rwa [if_neg hs] at this

/-- Closed witness for `tab_registry_monotonic`: a run that opens a tab and
closes the active one. -/
theorem tab_registry_monotonic_witness :
    TabInv (runServer ⟨"p", ""⟩ initServerState [(.tabNewM "", envAllOk)]) ∧
    List.Pairwise (· < ·)
      (1 :: runAssigns ⟨"p", ""⟩ initServerState [(.tabNewM "", envAllOk)]) ∧
    (((dispatch ⟨"p", ""⟩ envAllOk
        (runServer ⟨"p", ""⟩ initServerState [(.tabNewM "", envAllOk)])
        (.tabCloseM 2)).1.tabs ≠ [] ∧
      (dispatch ⟨"p", ""⟩ envAllOk
        (runServer ⟨"p", ""⟩ initServerState [(.tabNewM "", envAllOk)])
        (.tabCloseM 2)).1.activeTab ∈
        (dispatch ⟨"p", ""⟩ envAllOk
          (runServer ⟨"p", ""⟩ initServerState [(.tabNewM "", envAllOk)])
          (.tabCloseM 2)).1.tabs) ∨
     ((dispatch ⟨"p", ""⟩ envAllOk
        (runServer ⟨"p", ""⟩ initServerState [(.tabNewM "", envAllOk)])
        (.tabCloseM 2)).1.tabs = [] ∧
      (dispatch ⟨"p", ""⟩ envAllOk
        (runServer ⟨"p", ""⟩ initServerState [(.tabNewM "", envAllOk)])
        (.tabCloseM 2)).1.activeTab = 0)) := by
  have h := tab_registry_monotonic ⟨"p", ""⟩ [(.tabNewM "", envAllOk)]
  exact ⟨h.1, h.2.1, h.2.2 envAllOk 2 rfl (by decide)⟩

/-- C5: when `TabNew` creates the page but the initial `Goto` of a non-empty
url fails, the response is an error while the new tab is still registered
and active and the ID counter stays advanced (server.go:254-261). -/
theorem tabnew_error_not_rolled_back (cfg : ServerConfig) (env : Env)
    (s : ServerState) (i url e : String)
    (hurl : url ≠ "") (hnew : env.newPageErr = none)
    (hgoto : env.actionErr = some e) :
    (handleRequest cfg env s ⟨i, .tabNewM url⟩).2 = ⟨i, none, some e⟩ ∧
    (handleRequest cfg env s ⟨i, .tabNewM url⟩).1.tabs = s.tabs ++ [s.nextTabId] ∧
    (handleRequest cfg env s ⟨i, .tabNewM url⟩).1.activeTab = s.nextTabId ∧
    (handleRequest cfg env s ⟨i, .tabNewM url⟩).1.nextTabId = s.nextTabId + 1 := by
  have hloc : tabNewLocked cfg env s url
      = (⟨s.tabs ++ [s.nextTabId], s.nextTabId, s.nextTabId + 1⟩, .error e) := by
    unfold tabNewLocked
    rw [hnew]
    dsimp only
    rw [if_pos hurl, hgoto]
  have hdisp : dispatch cfg env s (.tabNewM url)
      = (⟨s.tabs ++ [s.nextTabId], s.nextTabId, s.nextTabId + 1⟩, .error e) := by
    rw [dispatch_tabNew_eq, hloc]
    rfl
  unfold handleRequest
  rw [hdisp]
  exact ⟨rfl, rfl, rfl, rfl⟩

/-- Closed witness for `tabnew_error_not_rolled_back`. -/
theorem tabnew_error_not_rolled_back_witness :
    (handleRequest ⟨"p", ""⟩
        ⟨none, some "goto failed", none, fun _ => "", fun _ => "", [], "null",
          ⟨"", "", "", []⟩⟩
        ⟨[1], 1, 2⟩ ⟨"7", .tabNewM "https://example.com"⟩).2
      = ⟨"7", none, some "goto failed"⟩ ∧
    (handleRequest ⟨"p", ""⟩
        ⟨none, some "goto failed", none, fun _ => "", fun _ => "", [], "null",
          ⟨"", "", "", []⟩⟩
        ⟨[1], 1, 2⟩ ⟨"7", .tabNewM "https://example.com"⟩).1.tabs = [1, 2] := by
  have h := tabnew_error_not_rolled_back ⟨"p", ""⟩
    ⟨none, some "goto failed", none, fun _ => "", fun _ => "", [], "null",
      ⟨"", "", "", []⟩⟩
    ⟨[1], 1, 2⟩ "7" "https://example.com" "goto failed" (by decide) rfl rfl
  exact ⟨h.1, h.2.1⟩

/-- C6: `resolveTabIDFromStatus` errors on zero tabs, returns the single
tab's id on one, and demands `--tab` on two or more; server-side, `tab = 0`
resolves to the active tab, with exactly one registered tab it targets that
tab, and with no tabs every `withTab` method fails. -/
theorem resolve_default_tab (profileName : String) (t t1 t2 : TabInfo)
    (rest : List TabInfo) (cfg : ServerConfig) (env : Env) (s : ServerState)
    (hinv : TabInv s) :
    resolveTabIDFromStatus ⟨profileName, []⟩ = .error "no tabs available" ∧
    resolveTabIDFromStatus ⟨profileName, [t]⟩ = .ok t.id ∧
    resolveTabIDFromStatus ⟨profileName, t1 :: t2 :: rest⟩
      = .error "multiple tabs; use --tab" ∧
    resolveTab s 0 = s.activeTab ∧
    (∀ k, s.tabs = [k] → resolveTab s 0 = k) ∧
    (s.tabs = [] → withTabLocked cfg env s 0 = .error "tab not found") := by
  refine ⟨rfl, rfl, rfl, rfl, ?_, ?_⟩
  · intro k hk
    have := hinv.2.2.2
    rw [if_neg (by rw [hk]; exact List.cons_ne_nil _ _)] at this
    rw [hk] at this
    show s.activeTab = k
    exact List.mem_singleton.mp this
  · intro hempty
    have hzero := hinv.2.2.2
    rw [if_pos hempty] at hzero
    unfold withTabLocked
    rw [if_neg]
    show ¬ s.tabs.contains (resolveTab s 0) = true
    rw [show resolveTab s 0 = s.activeTab from rfl, hzero, hempty]
    decide

/-- Closed witness for `resolve_default_tab` at concrete states. -/
theorem resolve_default_tab_witness :
    resolveTabIDFromStatus ⟨"p", [⟨3, "", "", false⟩]⟩ = .ok 3 ∧
    resolveTab ⟨[3], 3, 4⟩ 0 = 3 ∧
    withTabLocked ⟨"p", ""⟩ envAllOk ⟨[], 0, 5⟩ 0 = .error "tab not found" := by
  have h1 := resolve_default_tab "p" ⟨3, "", "", false⟩ ⟨1, "", "", false⟩
    ⟨2, "", "", false⟩ [] ⟨"p", ""⟩ envAllOk ⟨[3], 3, 4⟩ (by decide)
  have h2 := resolve_default_tab "p" ⟨3, "", "", false⟩ ⟨1, "", "", false⟩
    ⟨2, "", "", false⟩ [] ⟨"p", ""⟩ envAllOk ⟨[], 0, 5⟩ (by decide)
  exact ⟨h1.2.1, h1.2.2.2.2.1 3 rfl, h2.2.2.2.2.2 rfl⟩

theorem applyOverrides_name (p : Profile) (o : Overrides) :
    (applyOverrides p o).1.name = p.name := by
  rcases o with ⟨b, ch, hl, t⟩
  unfold applyOverrides
  cases hl <;> cases t <;> by_cases hb : b = "" <;> by_cases hc : ch = "" <;>
    simp [hb, hc]

theorem applyOverrides_updated (p : Profile) (o : Overrides) :
    (applyOverrides p o).2 = overridesSet o := by
  rcases o with ⟨b, ch, hl, t⟩
  unfold applyOverrides overridesSet
  cases hl <;> cases t <;> by_cases hb : b = "" <;> by_cases hc : ch = "" <;>
    simp [hb, hc]

theorem applyOverrides_idem (p : Profile) (o : Overrides) :
    (applyOverrides (applyOverrides p o).1 o).1 = (applyOverrides p o).1 := by
  rcases o with ⟨b, ch, hl, t⟩
  unfold applyOverrides
  cases hl <;> cases t <;> by_cases hb : b = "" <;> by_cases hc : ch = "" <;>
    simp [hb, hc]

theorem profile_set_name_self (p : Profile) : { p with name := p.name } = p := rfl

/-- C3, counterexample: with the profile already existing and an override
whose value equals the stored one, the second `Upsert` writes again —
`applyOverrides` reports `updated` whenever a field is *present*
(store.go:186-189), not when a value changed — although no field changed. -/
theorem upsert_second_call_writes :
    (upsert 7 0 (upsert 0 0 (fun _ => none) "x" ⟨"firefox", "", none, none⟩).fs
        "x" ⟨"firefox", "", none, none⟩).wrote = true ∧
    (upsert 7 0 (upsert 0 0 (fun _ => none) "x" ⟨"firefox", "", none, none⟩).fs
        "x" ⟨"firefox", "", none, none⟩).fs "x"
      = (upsert 0 0 (fun _ => none) "x" ⟨"firefox", "", none, none⟩).fs "x" ∧
    (applyOverrides ⟨"x", "firefox", "chrome", true, 0, 0, 0⟩
        ⟨"firefox", "", none, none⟩).1
      = ⟨"x", "firefox", "chrome", true, 0, 0, 0⟩ := by
  refine ⟨rfl, rfl, rfl⟩

theorem storeSave_of_name (fs0 : ProfileFS) (q : Profile) (n : String)
    (hq : q.name = n) (hn : sanitizeName n = n) (hne : n ≠ "") :
    storeSave fs0 q = .ok (fun k => if k = n then some q else fs0 k) := by
  unfold storeSave
  rw [hq, hn, if_neg hne]
  have hk : ∀ k, (if k = n then some { q with name := n } else fs0 k)
      = (if k = n then some q else fs0 k) := by
    intro k
    rw [← hq]
  exact congrArg Except.ok (funext hk)

/-- C3, amended: a second identical `Upsert` leaves every on-disk
`profile.json` byte-identical (the tree is pointwise unchanged), but it
performs a write exactly when some override field is present — not only
when a field actually changed. -/
theorem upsert_idempotent (now now2 dttl : Int) (fs : ProfileFS) (name : String)
    (o : Overrides) (hname : sanitizeName name ≠ "")
    (hwf : ∀ k q, fs k = some q → q.name = k) :
    (∀ k, (upsert now2 dttl (upsert now dttl fs name o).fs name o).fs k
        = (upsert now dttl fs name o).fs k) ∧
    (upsert now2 dttl (upsert now dttl fs name o).fs name o).wrote
      = overridesSet o := by
  have hidem : sanitizeName (sanitizeName name) = sanitizeName name :=
    sanitizeName_idem name
  cases hfs : fs (sanitizeName name) with
  | none =>
    have hp0name : (applyOverrides
        ⟨sanitizeName name, "chromium", "chrome", true,
          goDurationSeconds dttl, now, now⟩ o).1.name = sanitizeName name :=
      applyOverrides_name _ o
    have h1 : upsert now dttl fs name o
        = ⟨fun k => if k = sanitizeName name
              then some (applyOverrides
                ⟨sanitizeName name, "chromium", "chrome", true,
                  goDurationSeconds dttl, now, now⟩ o).1
              else fs k,
           true,
           .ok ((applyOverrides
              ⟨sanitizeName name, "chromium", "chrome", true,
                goDurationSeconds dttl, now, now⟩ o).1, true)⟩ := by
      unfold upsert
      rw [if_neg hname, hfs]
      dsimp only
      rw [storeSave_of_name _ _ _ hp0name hidem hname]
    rw [h1]
    dsimp only
    have hfs2 : (fun k => if k = sanitizeName name
          then some (applyOverrides
            ⟨sanitizeName name, "chromium", "chrome", true,
              goDurationSeconds dttl, now, now⟩ o).1
          else fs k) (sanitizeName name)
        = some (applyOverrides
            ⟨sanitizeName name, "chromium", "chrome", true,
              goDurationSeconds dttl, now, now⟩ o).1 := by
      dsimp only
      rw [if_pos rfl]
    have hidm : (applyOverrides (applyOverrides
        ⟨sanitizeName name, "chromium", "chrome", true,
          goDurationSeconds dttl, now, now⟩ o).1 o).1
        = (applyOverrides
            ⟨sanitizeName name, "chromium", "chrome", true,
              goDurationSeconds dttl, now, now⟩ o).1 :=
      applyOverrides_idem _ o
    have hupd : (applyOverrides (applyOverrides
        ⟨sanitizeName name, "chromium", "chrome", true,
          goDurationSeconds dttl, now, now⟩ o).1 o).2 = overridesSet o :=
      applyOverrides_updated _ o
    unfold upsert
    rw [if_neg hname, hfs2]
    dsimp only
    cases hset : overridesSet o with
    | true =>
      rw [hupd.trans hset, if_pos rfl]
      rw [storeSave_of_name _ _ _ (by rw [hidm]; exact hp0name) hidem hname]
      refine ⟨?_, rfl⟩
      intro k
      dsimp only
      by_cases hk : k = sanitizeName name
      · rw [if_pos hk, if_pos hk, hidm]
      · rw [if_neg hk, if_neg hk]
    | false =>
      rw [hupd.trans hset]
      exact ⟨fun k => rfl, rfl⟩
  | some q =>
    have hqname : q.name = sanitizeName name := hwf _ q hfs
    have hupd : (applyOverrides q o).2 = overridesSet o := applyOverrides_updated _ o
    have hq1name : (applyOverrides q o).1.name = sanitizeName name := by
      rw [applyOverrides_name]
      exact hqname
    cases hset : overridesSet o with
    | true =>
      have h1 : upsert now dttl fs name o
          = ⟨fun k => if k = sanitizeName name
                then some (applyOverrides q o).1 else fs k,
             true, .ok ((applyOverrides q o).1, false)⟩ := by
        unfold upsert
        rw [if_neg hname, hfs]
        dsimp only
        rw [hupd.trans hset, if_pos rfl]
        rw [storeSave_of_name _ _ _ hq1name hidem hname]
      rw [h1]
      dsimp only
      have hfs2 : (fun k => if k = sanitizeName name
            then some (applyOverrides q o).1 else fs k) (sanitizeName name)
          = some (applyOverrides q o).1 := by
        dsimp only
        rw [if_pos rfl]
      have hidm : (applyOverrides (applyOverrides q o).1 o).1 = (applyOverrides q o).1 :=
        applyOverrides_idem _ o
      have hupd2 : (applyOverrides (applyOverrides q o).1 o).2 = overridesSet o :=
        applyOverrides_updated _ o
      unfold upsert
      rw [if_neg hname, hfs2]
      dsimp only
      rw [hupd2.trans hset, if_pos rfl]
      rw [storeSave_of_name _ _ _ (by rw [hidm]; exact hq1name) hidem hname]
      refine ⟨?_, rfl⟩
      intro k
      dsimp only
      by_cases hk : k = sanitizeName name
      · rw [if_pos hk, if_pos hk, hidm]
      · rw [if_neg hk, if_neg hk]
    | false =>
      have h1 : upsert now dttl fs name o
          = ⟨fs, false, .ok ((applyOverrides q o).1, false)⟩ := by
        unfold upsert
        rw [if_neg hname, hfs]
        dsimp only
        rw [hupd.trans hset]
        rfl
      have h2 : upsert now2 dttl fs name o
          = ⟨fs, false, .ok ((applyOverrides q o).1, false)⟩ := by
        unfold upsert
        rw [if_neg hname, hfs]
        dsimp only
        rw [hupd.trans hset]
        rfl
      rw [h1]
      dsimp only
      rw [h2]
      exact ⟨fun k => rfl, rfl⟩

/-- Closed witness for `upsert_idempotent`. -/
theorem upsert_idempotent_witness :
    (∀ k, (upsert 7 3600000000000 (upsert 0 3600000000000 (fun _ => none) "Alice"
          ⟨"firefox", "", none, none⟩).fs "Alice" ⟨"firefox", "", none, none⟩).fs k
        = (upsert 0 3600000000000 (fun _ => none) "Alice"
          ⟨"firefox", "", none, none⟩).fs k) ∧
    (upsert 7 3600000000000 (upsert 0 3600000000000 (fun _ => none) "Alice"
        ⟨"firefox", "", none, none⟩).fs "Alice" ⟨"firefox", "", none, none⟩).wrote
      = overridesSet ⟨"firefox", "", none, none⟩ :=
  upsert_idempotent 0 7 3600000000000 (fun _ => none) "Alice"
    ⟨"firefox", "", none, none⟩ (by decide) (fun k q h => absurd h (by simp))

/-- C8: `IsExpired` is true exactly when `ttl > 0` and now is strictly past
`last_used + ttl`; a zero TTL never expires and hitting the deadline
exactly is not yet expired (store.go:152-158). -/
theorem isExpired_characterization (now : Int) (p : Profile) :
    (isExpired now p = true ↔ 0 < p.ttl ∧ p.lastUsed + p.ttl * 1000000000 < now) ∧
    (p.ttl = 0 → isExpired now p = false) ∧
    (p.lastUsed + p.ttl * 1000000000 = now → isExpired now p = false) := by
  unfold isExpired
  refine ⟨?_, ?_, ?_⟩
  · split
    · next h => simp; omega
    · next h => simp; omega
  · intro h
    rw [if_pos (by omega)]
  · intro h
    split
    · rfl
    · simp
      omega

/-- Closed witness for `isExpired_characterization`. -/
theorem isExpired_characterization_witness :
    isExpired 10 ⟨"x", "chromium", "chrome", true, 0, 0, 0⟩ = false ∧
    isExpired 5000000000 ⟨"x", "chromium", "chrome", true, 5, 0, 0⟩ = false ∧
    isExpired 5000000001 ⟨"x", "chromium", "chrome", true, 5, 0, 0⟩ = true := by
  refine ⟨(isExpired_characterization 10 _).2.1 rfl,
    (isExpired_characterization 5000000000 _).2.2 (by norm_num),
    ((isExpired_characterization 5000000001 _).1).mpr (by norm_num)⟩

/-- C10, counterexample: an interior tab is whitespace but is *not*
replaced by `'-'` — `sanitizeName` only replaces `' '` (store.go:208) — and
`Upsert` stores the profile under the tab-containing name. -/
theorem sanitize_whitespace_counterexample :
    sanitizeName "a\tb" = "a\tb" ∧
    sanitizeSpecWhitespace "a\tb" = "a-b" ∧
    sanitizeName "a\tb" ≠ sanitizeSpecWhitespace "a\tb" ∧
    (upsert 0 0 (fun _ => none) "a\tb" ⟨"", "", none, none⟩).result
      = .ok (⟨"a\tb", "chromium", "chrome", true, 0, 0, 0⟩, true) := by
  exact ⟨rfl, rfl, by decide, rfl⟩

/-- C10, amended: `Upsert(x, o)` on a store-written tree errors exactly when
the sanitized name is empty, and otherwise returns a profile whose name is
`sanitize(x)` where sanitize trims, lowercases, and replaces *spaces* by
`'-'`. -/
theorem upsert_name_sanitized (now dttl : Int) (fs : ProfileFS) (name : String)
    (o : Overrides) (hwf : ∀ k q, fs k = some q → q.name = k) :
    (sanitizeName name = "" →
      (upsert now dttl fs name o).result = .error "profile name required") ∧
    (sanitizeName name ≠ "" →
      ∀ p c, (upsert now dttl fs name o).result = .ok (p, c) →
        p.name = sanitizeSpecSpaces name) := by
  have hspec : sanitizeSpecSpaces name = sanitizeName name := by
    apply string_eq_of_toList
    rw [sanitizeName_data]
    rfl
  constructor
  · intro h
    unfold upsert
    rw [if_pos h]
  · intro h p c hres
    rw [hspec]
    unfold upsert at hres
    rw [if_neg h] at hres
    cases hfs : fs (sanitizeName name) with
    | none =>
      rw [hfs] at hres
      dsimp only at hres
      cases hsv : storeSave fs (applyOverrides
          ⟨sanitizeName name, "chromium", "chrome", true,
            goDurationSeconds dttl, now, now⟩ o).1 with
      | error e => rw [hsv] at hres; exact absurd hres (by simp)
      | ok fs1 =>
        rw [hsv] at hres
        dsimp only at hres
        have : p = (applyOverrides
            ⟨sanitizeName name, "chromium", "chrome", true,
              goDurationSeconds dttl, now, now⟩ o).1 := by
          cases hres
          rfl
        rw [this, applyOverrides_name]
    | some q =>
      rw [hfs] at hres
      dsimp only at hres
      have hqn : q.name = sanitizeName name := hwf _ q hfs
      by_cases hu : (applyOverrides q o).2 = true
      · rw [if_pos hu] at hres
        cases hsv : storeSave fs (applyOverrides q o).1 with
        | error e => rw [hsv] at hres; exact absurd hres (by simp)
        | ok fs1 =>
          rw [hsv] at hres
          dsimp only at hres
          have : p = (applyOverrides q o).1 := by cases hres; rfl
          rw [this, applyOverrides_name]
          exact hqn
      · rw [if_neg hu] at hres
        have : p = (applyOverrides q o).1 := by cases hres; rfl
        rw [this, applyOverrides_name]
        exact hqn

/-- Closed witness for `upsert_name_sanitized`. -/
theorem upsert_name_sanitized_witness :
    (upsert 0 0 (fun _ => none) "  " ⟨"", "", none, none⟩).result
      = .error "profile name required" ∧
    (⟨"alice", "chromium", "chrome", true, 0, 0, 0⟩ : Profile).name
      = sanitizeSpecSpaces " Alice " := by
  have h1 := upsert_name_sanitized 0 0 (fun _ => none) "  " ⟨"", "", none, none⟩
    (fun k q h => absurd h (by simp))
  have h2 := upsert_name_sanitized 0 0 (fun _ => none) " Alice " ⟨"", "", none, none⟩
    (fun k q h => absurd h (by simp))
  refine ⟨h1.1 (by decide), ?_⟩
  exact h2.2 (by decide) ⟨"alice", "chromium", "chrome", true, 0, 0, 0⟩ true rfl

/-- C7, counterexample: a recorded `daemon.json` with an *empty* binary
path differs from the current executable's path, yet `binaryMismatch`
reports false — records missing path or modtime are treated as matching
(manager.go:136-138). -/
theorem binaryMismatch_empty_path_counterexample :
    binaryMismatch (some ("/bin/www", 5)) ⟨1, "s", 0, "", 5⟩ = false ∧
    ("" : String) ≠ "/bin/www" := by
  exact ⟨rfl, by decide⟩

/-- C7, amended: `binaryMismatch` is false on a record carrying the current
executable's path and modtime; it is true exactly when the recorded path is
non-empty, the recorded modtime non-zero, and either differs; and once
`IsRunning` sees a live process and socket but a binary mismatch, it
reports not-running and both `daemon.sock` and `daemon.json` are gone. -/
theorem binary_staleness (P : String) (M : Int) (pid : Int) (sock : String)
    (st : Int) (info : Info) (w : MgrWorld)
    (hinfo : w.infoFile = some info)
    (halive : processAlive w info.pid = true)
    (hsock : w.sockDialOk = true)
    (hmm : binaryMismatch w.currentBin info = true) :
    binaryMismatch (some (P, M)) ⟨pid, sock, st, P, M⟩ = false ∧
    (binaryMismatch (some (P, M)) info = true ↔
      info.binaryPath ≠ "" ∧ info.binaryModTime ≠ 0 ∧
        (info.binaryPath ≠ P ∨ info.binaryModTime ≠ M)) ∧
    (isRunning w).2.1 = false ∧
    (isRunning w).1.infoFile = none ∧
    (isRunning w).1.sockFile = false := by
  have hrun : isRunning w = (cleanupStale w, false, none) := by
    unfold isRunning
    rw [hinfo]
    dsimp only
    rw [halive, hsock, hmm]
    rfl
  refine ⟨?_, ?_, ?_, ?_, ?_⟩
  · unfold binaryMismatch
    dsimp only
    by_cases hP : P = ""
    · rw [if_pos (Or.inl hP)]
    · by_cases hM : M = 0
      · rw [if_pos (Or.inr hM)]
      · rw [if_neg (by push_neg; exact ⟨hP, hM⟩), if_neg (fun h => h rfl)]
        simp
  · unfold binaryMismatch
    dsimp only
    by_cases hbp : info.binaryPath = ""
    · rw [if_pos (Or.inl hbp)]
      constructor
      · intro h
        exact absurd h (by simp)
      · rintro ⟨h1, -, -⟩
        exact absurd hbp h1
    · by_cases hbm : info.binaryModTime = 0
      · rw [if_pos (Or.inr hbm)]
        constructor
        · intro h
          exact absurd h (by simp)
        · rintro ⟨-, h2, -⟩
          exact absurd hbm h2
      · rw [if_neg (by push_neg; exact ⟨hbp, hbm⟩)]
        by_cases hpp : info.binaryPath = P
        · rw [if_neg (not_not_intro hpp)]
          constructor
          · intro h
            refine ⟨hbp, hbm, Or.inr ?_⟩
            simpa using h
          · rintro ⟨-, -, h3 | h3⟩
            · exact absurd hpp h3
            · simpa using h3
        · rw [if_pos hpp]
          exact ⟨fun _ => ⟨hbp, hbm, Or.inl hpp⟩, fun _ => rfl⟩
  · rw [hrun]
  · rw [hrun]
    rfl
  · rw [hrun]
    rfl

/-- Closed witness for `binary_staleness`: a live daemon recorded with an
older modtime is stopped and cleaned up. -/
theorem binary_staleness_witness :
    (isRunning ⟨some ⟨42, "daemon.sock", 0, "/bin/www", 4⟩, true, fun _ => true,
        true, some ("/bin/www", 5)⟩).2.1 = false ∧
    (isRunning ⟨some ⟨42, "daemon.sock", 0, "/bin/www", 4⟩, true, fun _ => true,
        true, some ("/bin/www", 5)⟩).1.infoFile = none ∧
    (isRunning ⟨some ⟨42, "daemon.sock", 0, "/bin/www", 4⟩, true, fun _ => true,
        true, some ("/bin/www", 5)⟩).1.sockFile = false := by
  have h := binary_staleness "/bin/www" 5 42 "daemon.sock" 0
    ⟨42, "daemon.sock", 0, "/bin/www", 4⟩
    ⟨some ⟨42, "daemon.sock", 0, "/bin/www", 4⟩, true, fun _ => true,
      true, some ("/bin/www", 5)⟩
    rfl rfl rfl (by decide)
  exact ⟨h.2.2.1, h.2.2.2.1, h.2.2.2.2⟩

/-- C9: a blank `--timeout` yields the 20 s default, `"5s"` yields 5000 ms,
an unparsable value is an error (surfaced by the CLI as a usage failure), a
non-positive duration yields 0, and the server invokes `SetTimeout` on the
page, before the action, exactly when the transmitted `timeout_ms` is
positive. -/
theorem timeout_translation :
    (∀ s, goTrimSpaceStr s = "" → actionTimeoutMs s = .ok 20000) ∧
    actionTimeoutMs "5s" = .ok 5000 ∧
    (∀ s e, goTrimSpaceStr s ≠ "" → parseDuration s = .error e →
      actionTimeoutMs s = .error ("invalid timeout: " ++ e)) ∧
    (∀ s d, goTrimSpaceStr s ≠ "" → parseDuration s = .ok d → d ≤ 0 →
      actionTimeoutMs s = .ok 0) ∧
    (∀ ms : Int, 0 < ms →
      withTabLockedTimeoutCalls ms = [.setTimeout ms, .action]) ∧
    (∀ ms : Int, ms ≤ 0 → withTabLockedTimeoutCalls ms = [.action]) := by
  refine ⟨?_, rfl, ?_, ?_, ?_, ?_⟩
  · intro s hs
    unfold actionTimeoutMs
    rw [if_pos hs]
  · intro s e hs he
    unfold actionTimeoutMs
    rw [if_neg hs, he]
  · intro s d hs hd hle
    unfold actionTimeoutMs
    rw [if_neg hs, hd]
    dsimp only
    rw [if_pos hle]
  · intro ms hms
    unfold withTabLockedTimeoutCalls
    rw [if_pos hms]
    rfl
  · intro ms hms
    unfold withTabLockedTimeoutCalls
    rw [if_neg (by omega)]
    rfl

/-- Closed witness for `timeout_translation`. -/
theorem timeout_translation_witness :
    actionTimeoutMs "  " = .ok 20000 ∧
    actionTimeoutMs "bad" = .error ("invalid timeout: " ++ "time: invalid duration") ∧
    actionTimeoutMs "-3s" = .ok 0 ∧
    withTabLockedTimeoutCalls 1000 = [.setTimeout 1000, .action] ∧
    withTabLockedTimeoutCalls 0 = [.action] := by
  refine ⟨timeout_translation.1 "  " (by decide),
    timeout_translation.2.2.1 "bad" "time: invalid duration" (by decide) rfl,
    timeout_translation.2.2.2.1 "-3s" (-3000000000) (by decide) rfl (by decide),
    timeout_translation.2.2.2.2.1 1000 (by decide),
    timeout_translation.2.2.2.2.2 0 (by decide)⟩
